import Mathlib

/-!
Verification of the AADHAAR-DRISHTI dashboard core logic.

The definitions below are a shallow embedding of the data transformations in
src/frontend/src/App.jsx (the memoized `trendData`, `studioData`, `chartData`,
`demographicSplit` computations and the `generateBriefing` action), together
with spec-modelled definitions for the backend Model Arbiter and Briefing
Gateway, whose code is not part of the repository snapshot.

Modelling conventions:
* A raw record is a JSON row; fields that may be absent are `Option`-valued.
  The JavaScript idiom `x || d` (with `d` a default) maps `none`, `0` and the
  empty string to the default, exactly as JS treats falsy values.
* JavaScript `Array.prototype.sort` (stable since ES2019) with a numeric
  comparator `c` is modelled by `List.mergeSort` (also stable) with the
  boolean relation `le a b := c a b ≤ 0`; per the ECMAScript SortCompare
  clause a comparator result of NaN is treated as `+0`, i.e. as a tie, which
  is why the date comparator below returns `true` whenever either date fails
  to parse.
* `new Date(string)` is modelled by `parseDate`, a strict parser of the
  canonical `YYYY-MM-DD` form the dataset uses; any other string yields
  `none` (the model of an Invalid Date / NaN timestamp).
* Numeric model outputs (`val`, `confidence`) are modelled as rationals.
-/

namespace Drishti

/-! ## Records (one ingested row) -/

structure Record where
  date : Option String
  state : Option String
  district : Option String
  age_0_5 : Option Nat
  age_5_17 : Option Nat
  age_18_greater : Option Nat
  total_updates : Option Nat
  total_enrolment : Option Nat
deriving Repr, DecidableEq

/-- The JavaScript `x || 0` read of a possibly missing numeric field. -/
def orZero (o : Option Nat) : Nat := o.getD 0

/-- The JavaScript `curr.date || 'N/A'` read: a missing or empty date string
becomes the sentinel `"N/A"`. -/
def normDate (o : Option String) : String :=
  match o with
  | none => "N/A"
  | some s => if s = "" then "N/A" else s

/-! ## Date parsing (model of `new Date(string)` on canonical dates) -/

/-- ASCII decimal digit test, phrased on code points. -/
def isDig (c : Char) : Bool := decide (48 ≤ c.toNat ∧ c.toNat ≤ 57)

/-- Numeric value of an ASCII digit. -/
def dval (c : Char) : Nat := c.toNat - 48

/-- Strict parser of `YYYY-MM-DD` into a number that orders like the calendar
day; non-canonical strings yield `none` (JS Invalid Date / NaN timestamp). -/
def parseDate (s : String) : Option Nat :=
  match s.data with
  | [y1, y2, y3, y4, h1, m1, m2, h2, d1, d2] =>
    if h1 == '-' && h2 == '-' && isDig y1 && isDig y2 && isDig y3 && isDig y4 &&
        isDig m1 && isDig m2 && isDig d1 && isDig d2 then
      some ((((dval y1 * 10 + dval y2) * 10 + dval y3) * 10 + dval y4) * 10000 +
        (dval m1 * 10 + dval m2) * 100 + (dval d1 * 10 + dval d2))
    else none
  | _ => none

/-! ## Grouped accumulation (the JS `reduce` building an object keyed by a
dimension, then `Object.values`).  String keys of a JS object that are not
array indices — which dates, state and district names are — preserve insertion
order, so the object is modelled as an association list to which a fresh key
is appended at the end, and an existing key is updated in place. -/

/-- One `reduce` step on the insertion-ordered association list: add `v`
componentwise to the entry of key `k`, appending a fresh entry when absent. -/
def upsert (k : String) (v : Nat × Nat) : List (String × (Nat × Nat)) → List (String × (Nat × Nat))
  | [] => [(k, v)]
  | (k₀, v₀) :: rest =>
    if k₀ = k then (k₀, (v₀.1 + v.1, v₀.2 + v.2)) :: rest
    else (k₀, v₀) :: upsert k v rest

/-- The whole `reduce`: accumulate per-key componentwise sums of `val` over the
records, keys in first-seen order. -/
def accumBy (key : Record → String) (val : Record → Nat × Nat) (l : List Record) :
    List (String × (Nat × Nat)) :=
  l.foldl (fun acc r => upsert (key r) (val r) acc) []

/-- Reference total: the componentwise sum of `val` over the records whose key
is `k`, in record order. -/
def sumVals (key : Record → String) (val : Record → Nat × Nat) (l : List Record) (k : String) :
    Nat × Nat :=
  l.foldl (fun acc r => if key r = k then (acc.1 + (val r).1, acc.2 + (val r).2) else acc) (0, 0)

/-! ## `trendData` (time aggregation, App.jsx lines 61-71) -/

structure TrendPoint where
  date : String
  updates : Nat
  enrolments : Nat
deriving Repr, DecidableEq

def trendKey (r : Record) : String := normDate r.date

def trendVal (r : Record) : Nat × Nat := (orZero r.total_updates, orZero r.total_enrolment)

/-- The sort relation induced by the JS comparator
`(a, b) => new Date(a.date) - new Date(b.date)`: ascending by parsed date,
with any comparison involving an unparseable date a tie (NaN is +0). -/
def trendLe (a b : TrendPoint) : Bool :=
  match parseDate a.date, parseDate b.date with
  | some x, some y => decide (x ≤ y)
  | _, _ => true

/-- Strict date order between two trend points: both dates parse and the first
is earlier.  Used to state the strict-increase property. -/
def dateLt (a b : TrendPoint) : Bool :=
  match parseDate a.date, parseDate b.date with
  | some x, some y => decide (x < y)
  | _, _ => false

/-- The grouped, unsorted stage of `trendData`: `Object.values` of the reduce. -/
def trendGrouped (l : List Record) : List TrendPoint :=
  (accumBy trendKey trendVal l).map fun p => ⟨p.1, p.2.1, p.2.2⟩

/-- `trendData` from App.jsx: group records by (normalized) date summing
`total_updates` and `total_enrolment`, then sort by parsed date. -/
def trendData (l : List Record) : List TrendPoint :=
  if l.isEmpty then [] else List.mergeSort (trendGrouped l) trendLe

/-- Decidable statement that every record carries a date in canonical
parseable form. -/
def datesParse (l : List Record) : Bool :=
  l.all fun r =>
    match r.date with
    | none => false
    | some s => (parseDate s).isSome

/-! ## `studioData` (pivot aggregation, App.jsx lines 73-82) -/

inductive Dimension
  | state
  | district
  | date
deriving Repr, DecidableEq

inductive Metric
  | total_updates
  | total_enrolment
deriving Repr, DecidableEq

def dimField (d : Dimension) (r : Record) : Option String :=
  match d with
  | .state => r.state
  | .district => r.district
  | .date => r.date

/-- The JS `curr[pivotX] || "Unknown"` read of the selected dimension. -/
def pivotKey (d : Dimension) (r : Record) : String :=
  match dimField d r with
  | none => "Unknown"
  | some s => if s = "" then "Unknown" else s

def metricField (m : Metric) (r : Record) : Option Nat :=
  match m with
  | .total_updates => r.total_updates
  | .total_enrolment => r.total_enrolment

def pivotVal (m : Metric) (r : Record) : Nat × Nat := (orZero (metricField m r), 0)

structure PivotEntry where
  name : String
  value : Nat
deriving Repr, DecidableEq

/-- The sort relation induced by the JS comparator `(a, b) => b.value - a.value`,
i.e. descending by aggregated value. -/
def pivotLe (a b : PivotEntry) : Bool := decide (b.value ≤ a.value)

/-- The grouped pivot before sorting and truncation: per-key metric sums in
first-seen key order. -/
def groupedPivot (dx : Dimension) (dy : Metric) (l : List Record) : List PivotEntry :=
  (accumBy (pivotKey dx) (pivotVal dy) l).map fun p => ⟨p.1, p.2.1⟩

/-- `studioData` from App.jsx: pivot by the selected dimension and metric,
sort descending by value, keep the first 12 entries. -/
def studioData (dx : Dimension) (dy : Metric) (l : List Record) : List PivotEntry :=
  if l.isEmpty then []
  else (List.mergeSort (groupedPivot dx dy l) pivotLe).take 12

/-! ## Prediction details and `chartData` (App.jsx lines 84-106) -/

structure PredDetail where
  val : ℚ
  confidence : ℚ
deriving Repr, DecidableEq

structure PredictionDetails where
  xgboost : PredDetail
  random_forest : PredDetail
deriving Repr, DecidableEq

structure ChartPoint where
  date : String
  updates : Option Nat
  enrolments : Option Nat
  xgbForecast : Option ℚ
  rfForecast : Option ℚ
deriving Repr, DecidableEq

/-- A historical trend point viewed as a chart point (no forecast fields). -/
def toChartPoint (p : TrendPoint) : ChartPoint :=
  ⟨p.date, some p.updates, some p.enrolments, none, none⟩

/-- The appended forecast node: the two models' point estimates scaled by one
million, with no actuals. -/
def forecastNode (pd : PredictionDetails) : ChartPoint :=
  ⟨"Next Cycle (Est)", none, none, some (pd.xgboost.val * 1000000),
    some (pd.random_forest.val * 1000000)⟩

/-- The `map` with index in `chartData`: every point except the last is carried
over unchanged; the last additionally duplicates its `updates` into both
forecast fields (anchoring the dashed forecast lines). -/
def injectLast : List TrendPoint → List ChartPoint
  | [] => []
  | [p] => [⟨p.date, some p.updates, some p.enrolments, some (p.updates : ℚ), some (p.updates : ℚ)⟩]
  | p :: q :: rest => toChartPoint p :: injectLast (q :: rest)

/-- `chartData` from App.jsx: the trend series plus one forecast node, when
prediction details exist and the series is non-empty. -/
def chartData (l : List Record) (pd : Option PredictionDetails) : List ChartPoint :=
  match pd with
  | none => (trendData l).map toChartPoint
  | some p =>
    if (trendData l).isEmpty then (trendData l).map toChartPoint
    else injectLast (trendData l) ++ [forecastNode p]

/-! ## `demographicSplit` (App.jsx lines 108-121) -/

structure DemEntry where
  name : String
  value : Nat
  color : String
deriving Repr, DecidableEq

/-- The accumulated `(infants, students, adults)` sums of the reduce in
`demographicSplit`. -/
def ageTotals (l : List Record) : Nat × Nat × Nat :=
  l.foldl
    (fun acc r =>
      (acc.1 + orZero r.age_0_5, acc.2.1 + orZero r.age_5_17, acc.2.2 + orZero r.age_18_greater))
    ((0, 0, 0) : Nat × Nat × Nat)

/-- `demographicSplit` from App.jsx: sum the three age-band fields over all
records; an empty record set short-circuits to the empty list. -/
def demographicSplit (l : List Record) : List DemEntry :=
  if l.isEmpty then []
  else
    [⟨"Infants (0-5)", (ageTotals l).1, "#38bdf8"⟩, ⟨"Students (5-17)", (ageTotals l).2.1, "#818cf8"⟩,
      ⟨"Adults (18+)", (ageTotals l).2.2, "#c084fc"⟩]

/-! ## The briefing action (`generateBriefing`, App.jsx lines 124-142)

The component state that the action can see or touch is collected in
`AppState`.  The axios POST is modelled by a `respond` function supplied by
the environment: it receives the payload the action sends and yields either a
rejection (timeout, HTTP error status, network failure — axios rejects on all
of these) or a resolved body.  A resolved body is `none` for a null/absent
body (reading `.interpretation` on it throws, landing in the catch branch)
or `some` a body object whose `interpretation` field may itself be missing. -/

/-- JS template rendering of `(q).toFixed(1)` for a rational: round to one
decimal place, ties away from smaller values, as the ECMAScript `toFixed`
clause prescribes for in-range arguments. -/
def toFixed1 (q : ℚ) : String :=
  let n : Int := ⌊q * 10 + 1 / 2⌋
  if n < 0 then "-" ++ toString ((-n) / 10) ++ "." ++ toString ((-n) % 10)
  else toString (n / 10) ++ "." ++ toString (n % 10)

/-- A JSON scalar sent in the briefing payload: the `volume` field is the raw
model value (a number) when present and truthy, and the string "N/A" otherwise. -/
inductive JsonVal
  | str (s : String)
  | num (q : ℚ)
deriving Repr, DecidableEq

/-- The body of the POST to `/api/ai-interpret`. -/
structure BriefingPayload where
  model : String
  volume : JsonVal
  confidence : String
  district : String
deriving Repr, DecidableEq

/-- `activeModel === 'XGBoost' ? 'xgboost' : 'random_forest'`. -/
def modelKeyOf (activeModel : String) : String :=
  if activeModel = "XGBoost" then "xgboost" else "random_forest"

/-- `predictionDetails?.[modelKey]`: absent exactly when the prediction
details have not been loaded. -/
def currentPredOf (activeModel : String) (pd : Option PredictionDetails) : Option PredDetail :=
  match pd with
  | none => none
  | some p => if modelKeyOf activeModel = "xgboost" then some p.xgboost else some p.random_forest

/-- The payload `generateBriefing` sends.  With no current prediction,
`currentPred?.val || "N/A"` is the string "N/A" and
`(currentPred?.confidence * 100).toFixed(1)` is "NaN" (undefined times a
number is NaN), so the confidence field reads "NaN%". -/
def briefingPayload (activeModel : String) (pd : Option PredictionDetails) : BriefingPayload :=
  let cp := currentPredOf activeModel pd
  { model := activeModel
    volume :=
      match cp with
      | none => .str "N/A"
      | some c => if c.val = 0 then .str "N/A" else .num c.val
    confidence :=
      (match cp with
        | none => "NaN"
        | some c => toFixed1 (c.confidence * 100)) ++ "%"
    district := "National Strategic Grid" }

/-- The dashboard state visible to the briefing action. -/
structure AppState where
  rawData : List Record
  governanceData : List (String × ℚ)
  predictionDetails : Option PredictionDetails
  activeModel : String
  aiBriefing : Option String
  isAiLoading : Bool
  pivotX : Dimension
  pivotY : Metric
deriving Repr, DecidableEq

/-- Ways the axios promise can reject. -/
inductive AxiosFailure
  | timeout
  | httpError (status : Nat)
  | networkError
deriving Repr, DecidableEq

/-- A resolved 2xx body: the `interpretation` field may be missing. -/
structure ApiResponse where
  interpretation : Option String
deriving Repr, DecidableEq

/-- The catch-branch text of `generateBriefing`. -/
def briefingFallback : String := "Strategic Briefing failed. Verify backend AI configuration."

/-- `generateBriefing` end to end: build the payload from the current state,
send it (the returned payload records the one request made — the action never
refuses to call), then either store the interpretation, or on any rejection or
null body store the fixed fallback text; the loading flag always ends false. -/
def generateBriefing (s : AppState)
    (respond : BriefingPayload → Except AxiosFailure (Option ApiResponse)) :
    AppState × BriefingPayload :=
  let payload := briefingPayload s.activeModel s.predictionDetails
  match respond payload with
  | .ok (some r) => ({ s with aiBriefing := r.interpretation, isAiLoading := false }, payload)
  | .ok none => ({ s with aiBriefing := some briefingFallback, isAiLoading := false }, payload)
  | .error _ => ({ s with aiBriefing := some briefingFallback, isAiLoading := false }, payload)

/-! ## Model Arbiter (spec-modelled)

The backend that computes the arbiter decision is not part of the repository
snapshot (only the frontend is), so it is modelled from the spec. -/

/-- Modelled from the spec: one model's evaluation under repeated windows —
`stability` is the variance of its forecast error across evaluation folds
(lower is more stable) and `meanError` its point accuracy (lower is more
accurate).  The backend computing these is missing from the snapshot. -/
structure ModelEval where
  name : String
  stability : ℚ
  meanError : ℚ
deriving Repr, DecidableEq

/-- Modelled from the spec: the Arbiter designates the default model by the
stability rule — lower stability score wins outright when the scores differ by
more than the tie-break tolerance, and accuracy (lower mean error) decides
only within the tolerance.  The backend Arbiter is missing from the snapshot. -/
def arbiterSelect (tol : ℚ) (a b : ModelEval) : ModelEval :=
  if |a.stability - b.stability| ≤ tol then
    if a.meanError ≤ b.meanError then a else b
  else if a.stability < b.stability then a else b

/-! ## Briefing Gateway circuit breaker (spec-modelled)

The backend gateway wrapping the external text-generation service is not part
of the repository snapshot; its breaker behaviour is modelled from the spec. -/

inductive BreakerState
  | closed
  | opened
  | halfOpen
deriving Repr, DecidableEq

inductive FailureKind
  | timeout
  | upstreamError (status : Nat)
  | malformedResponse
deriving Repr, DecidableEq

inductive BriefReason
  | gatewayTimeout
  | gatewayUpstreamError
  | gatewayMalformedResponse
  | breakerOpen
deriving Repr, DecidableEq

structure BriefingRequest where
  model : String
  volume : ℚ
  confidence : ℚ
  scope_label : String
deriving Repr, DecidableEq

structure GatewayResponse where
  text : String
  degraded : Bool
  reason : Option BriefReason
deriving Repr, DecidableEq

/-- Modelled from the spec: the deterministic fallback text, explicitly naming
degraded mode so it cannot be mistaken for a real briefing. -/
def gatewayFallbackText : String :=
  "DEGRADED MODE: automated briefing unavailable; all figures are computed offline."

def reasonOf : FailureKind → BriefReason
  | .timeout => .gatewayTimeout
  | .upstreamError _ => .gatewayUpstreamError
  | .malformedResponse => .gatewayMalformedResponse

/-- Modelled from the spec: one briefing call through the gateway.  `ext` is
the external text-generation service; the second component counts how many
times it was invoked.  With the breaker OPEN the call short-circuits to the
fallback with reason `breakerOpen` and the service is not consulted; otherwise
the single call is made and any failure degrades to the fallback with its
distinct reason.  The backend gateway is missing from the snapshot. -/
def gatewayBriefing (st : BreakerState) (ext : BriefingRequest → Except FailureKind String)
    (req : BriefingRequest) : GatewayResponse × Nat :=
  match st with
  | .opened => ({ text := gatewayFallbackText, degraded := true, reason := some .breakerOpen }, 0)
  | _ =>
    match ext req with
    | .ok t => ({ text := t, degraded := false, reason := none }, 1)
    | .error e =>
      ({ text := gatewayFallbackText, degraded := true, reason := some (reasonOf e) }, 1)

/-! ## Concrete sample inputs used by witnesses and counterexamples -/

/-- A record with no date field (JS `undefined`), 5 updates. -/
def recNoDate : Record := ⟨none, none, none, none, none, none, some 5, none⟩

/-- A record dated 2024-01-02 with 7 updates. -/
def recJan2 : Record := ⟨some "2024-01-02", none, none, none, none, none, some 7, none⟩

/-- A record dated 2024-01-01 with 4 updates and 2 enrolments. -/
def recJan1 : Record := ⟨some "2024-01-01", none, none, none, none, none, some 4, some 2⟩

/-- A second record dated 2024-01-02 (duplicate date) with 1 update. -/
def recJan2b : Record := ⟨some "2024-01-02", none, none, none, none, none, some 1, none⟩

/-- A record dated 2024-03-05 with 2 updates. -/
def recMar5 : Record := ⟨some "2024-03-05", none, none, none, none, none, some 2, none⟩

/-- A record whose date string does not parse as a calendar day. -/
def recGarbage : Record := ⟨some "garbage", none, none, none, none, none, some 3, none⟩

/-- A record with a district and an age split, for pivot and demographic tests. -/
def mkDistRec (d : String) (upd : Nat) : Record :=
  ⟨some "2024-01-01", some "S", some d, some 1, some 2, some 3, some upd, some upd⟩

/-- A parseable-dated sample with one duplicate date, out of order. -/
def trendSample : List Record := [recJan2, recJan1, recJan2b]

/-- A quiescent dashboard state with no prediction details loaded. -/
def sampleState : AppState :=
  ⟨[recJan1, recJan2], [], none, "XGBoost", some "", false, .district, .total_updates⟩

/-- A responder modelling a 2xx reply whose JSON body lacks the
`interpretation` field (a malformed success). -/
def malformedRespond : BriefingPayload → Except AxiosFailure (Option ApiResponse) :=
  fun _ => .ok (some ⟨none⟩)

/-- Sample prediction details for both models. -/
def samplePreds : PredictionDetails := ⟨⟨(5 : ℚ) / 2, (93 : ℚ) / 100⟩, ⟨(9 : ℚ) / 4, (88 : ℚ) / 100⟩⟩

/-- A sample briefing request for gateway witnesses. -/
def sampleRequest : BriefingRequest := ⟨"XGBoost", (5 : ℚ) / 2, (93 : ℚ) / 100, "National"⟩

/-! ## Lemmas on the grouped accumulation -/

theorem upsert_map_fst (k : String) (v : Nat × Nat) (acc : List (String × (Nat × Nat))) :
    (upsert k v acc).map Prod.fst =
      if k ∈ acc.map Prod.fst then acc.map Prod.fst else acc.map Prod.fst ++ [k] := by
  induction acc with
  | nil => simp [upsert]
  | cons p rest ih =>
    obtain ⟨k₀, v₀⟩ := p
    by_cases hk : k₀ = k
    · subst hk
      simp [upsert]
    · have hk2 : ¬ k = k₀ := fun h => hk h.symm
      simp only [upsert, if_neg hk, List.map_cons, ih, List.mem_cons]
      by_cases hmem : k ∈ rest.map Prod.fst
      · simp [hmem, hk2]
      · simp [hmem, hk2]

theorem mem_upsert (k : String) (v : Nat × Nat) :
    ∀ acc : List (String × (Nat × Nat)), (acc.map Prod.fst).Nodup →
    ∀ p ∈ upsert k v acc,
    (p ∈ acc ∧ p.1 ≠ k) ∨
    (∃ w, (k, w) ∈ acc ∧ p = (k, (w.1 + v.1, w.2 + v.2))) ∨
    (k ∉ acc.map Prod.fst ∧ p = (k, v)) := by
  intro acc
  induction acc with
  | nil =>
    intro _ p hp
    simp only [upsert, List.mem_singleton] at hp
    exact Or.inr (Or.inr ⟨by simp, hp⟩)
  | cons q rest ih =>
    obtain ⟨k₀, v₀⟩ := q
    intro hnd p hp
    have hnd₁ : (k₀ :: rest.map Prod.fst).Nodup := by simpa using hnd
    have hnd₀ : k₀ ∉ rest.map Prod.fst := (List.nodup_cons.mp hnd₁).1
    have hnd₂ : (rest.map Prod.fst).Nodup := (List.nodup_cons.mp hnd₁).2
    by_cases hk : k₀ = k
    · subst hk
      simp only [upsert, if_true, eq_self_iff_true, List.mem_cons] at hp
      rcases hp with hp | hp
      · exact Or.inr (Or.inl ⟨v₀, List.mem_cons_self _ _, hp⟩)
      · have hne : p.1 ≠ k₀ := by
          intro hkeq
          exact hnd₀ (hkeq ▸ List.mem_map_of_mem Prod.fst hp)
        exact Or.inl ⟨List.mem_cons_of_mem _ hp, hne⟩
    · simp only [upsert, if_neg hk, List.mem_cons] at hp
      rcases hp with hp | hp
      · refine Or.inl ⟨by simp [hp], ?_⟩
        rw [hp]
        exact fun h => hk h
      · rcases ih hnd₂ p hp with h | h | h
        · exact Or.inl ⟨List.mem_cons_of_mem _ h.1, h.2⟩
        · obtain ⟨w, hw1, hw2⟩ := h
          exact Or.inr (Or.inl ⟨w, List.mem_cons_of_mem _ hw1, hw2⟩)
        · refine Or.inr (Or.inr ⟨?_, h.2⟩)
          simp only [List.map_cons, List.mem_cons]
          rintro (hbad | hbad)
          · exact hk hbad.symm
          · exact h.1 hbad

theorem sumVals_nil (key : Record → String) (val : Record → Nat × Nat) (k : String) :
    sumVals key val [] k = (0, 0) := rfl

theorem sumVals_append_singleton (key : Record → String) (val : Record → Nat × Nat)
    (l : List Record) (r : Record) (k : String) :
    sumVals key val (l ++ [r]) k =
      if key r = k then
        ((sumVals key val l k).1 + (val r).1, (sumVals key val l k).2 + (val r).2)
      else sumVals key val l k := by
  simp only [sumVals, List.foldl_append, List.foldl_cons, List.foldl_nil]

theorem sumVals_of_not_mem (key : Record → String) (val : Record → Nat × Nat)
    {l : List Record} {k : String} (h : k ∉ l.map key) :
    sumVals key val l k = (0, 0) := by
  induction l using List.reverseRecOn with
  | nil => rfl
  | append_singleton l r ih =>
    simp only [List.map_append, List.map_cons, List.map_nil, List.mem_append,
      List.mem_singleton] at h
    push_neg at h
    rw [sumVals_append_singleton, if_neg (show ¬ key r = k from fun hc => h.2 hc.symm)]
    exact ih h.1

theorem accum_spec (key : Record → String) (val : Record → Nat × Nat) (l : List Record) :
    ((accumBy key val l).map Prod.fst).Nodup ∧
    (∀ k, k ∈ (accumBy key val l).map Prod.fst ↔ k ∈ l.map key) ∧
    (∀ p ∈ accumBy key val l, p.2 = sumVals key val l p.1) := by
  induction l using List.reverseRecOn with
  | nil => simp [accumBy]
  | append_singleton l r ih =>
    obtain ⟨ihnd, ihmem, ihsum⟩ := ih
    have hfold : accumBy key val (l ++ [r]) = upsert (key r) (val r) (accumBy key val l) := by
      simp [accumBy, List.foldl_append]
    have hkeys := upsert_map_fst (key r) (val r) (accumBy key val l)
    refine ⟨?_, ?_, ?_⟩
    · rw [hfold, hkeys]
      by_cases hmem : key r ∈ (accumBy key val l).map Prod.fst
      · simpa [hmem] using ihnd
      · simp only [if_neg hmem]
        simp [List.nodup_append, ihnd, hmem]
    · intro k
      rw [hfold, hkeys]
      by_cases hmem : key r ∈ (accumBy key val l).map Prod.fst
      · simp only [if_pos hmem, ihmem k, List.map_append, List.map_cons, List.map_nil,
          List.mem_append, List.mem_singleton]
        constructor
        · exact Or.inl
        · rintro (h | h)
          · exact h
          · subst h
            exact (ihmem (key r)).mp hmem
      · simp only [if_neg hmem, List.mem_append, List.mem_singleton, ihmem k, List.map_append,
          List.map_cons, List.map_nil]
    · intro p hp
      rw [hfold] at hp
      rcases mem_upsert (key r) (val r) (accumBy key val l) ihnd p hp with h | h | h
      · rw [sumVals_append_singleton,
          if_neg (show ¬ key r = p.1 from fun hc => h.2 (by rw [hc]))]
        exact ihsum p h.1
      · obtain ⟨w, hw, hpw⟩ := h
        have hsum := ihsum _ hw
        rw [hpw, sumVals_append_singleton]
        simp only at hsum
        simp [hsum]
      · have hnotin : key r ∉ l.map key := fun hc => h.1 ((ihmem (key r)).mpr hc)
        rw [h.2, sumVals_append_singleton, if_pos rfl, sumVals_of_not_mem key val hnotin]
        simp

/-! ## Lemmas on date parsing -/

theorem char_eq_of_toNat_eq {a b : Char} (h : a.toNat = b.toNat) : a = b :=
  Char.ext (UInt32.ext h)

/-- Two canonical date strings denoting the same day are equal: the strict
parser is injective on its domain of success. -/
theorem parseDate_inj {s t : String} {v : Nat} (hs : parseDate s = some v)
    (ht : parseDate t = some v) : s = t := by
  unfold parseDate at hs ht
  apply String.ext
  split at hs
  case h_2 => exact absurd hs (by simp)
  case h_1 y1 y2 y3 y4 h1 m1 m2 h2 d1 d2 heqs =>
    split at hs
    case isFalse => exact absurd hs (by simp)
    case isTrue hgs =>
      split at ht
      case h_2 => exact absurd ht (by simp)
      case h_1 z1 z2 z3 z4 g1 n1 n2 g2 e1 e2 heqt =>
        split at ht
        case isFalse => exact absurd ht (by simp)
        case isTrue hgt =>
          rw [heqs, heqt]
          simp only [Bool.and_eq_true, beq_iff_eq] at hgs hgt
          obtain ⟨⟨⟨⟨⟨⟨⟨⟨⟨hs1, hs2⟩, hs3⟩, hs4⟩, hs5⟩, hs6⟩, hs7⟩, hs8⟩, hs9⟩, hs10⟩ := hgs
          obtain ⟨⟨⟨⟨⟨⟨⟨⟨⟨ht1, ht2⟩, ht3⟩, ht4⟩, ht5⟩, ht6⟩, ht7⟩, ht8⟩, ht9⟩, ht10⟩ := hgt
          injection hs with hs
          injection ht with ht
          simp only [isDig, decide_eq_true_eq] at hs3 hs4 hs5 hs6 hs7 hs8 hs9 hs10
          simp only [isDig, decide_eq_true_eq] at ht3 ht4 ht5 ht6 ht7 ht8 ht9 ht10
          rw [← ht] at hs
          simp only [dval] at hs
          simp only [List.cons.injEq, and_true]
          refine ⟨?_, ?_, ?_, ?_, ?_, ?_, ?_, ?_, ?_, ?_⟩ <;>
            first
            | (rw [hs1, ht1])
            | (rw [hs2, ht2])
            | (apply char_eq_of_toNat_eq; omega)

theorem parseDate_empty : parseDate "" = none := rfl

/-- A parseable date string is non-empty, hence survives `normDate` unchanged. -/
theorem normDate_of_parse {s : String} (h : (parseDate s).isSome) :
    normDate (some s) = s := by
  have hs : s ≠ "" := by
    intro he
    subst he
    rw [parseDate_empty] at h
    simp at h
  simp [normDate, hs]

/-! ## Sortedness of the trend series -/

theorem trendLe_total (a b : TrendPoint) : trendLe a b || trendLe b a := by
  unfold trendLe
  cases hpa : parseDate a.date <;> cases hpb : parseDate b.date <;> simp
  exact Nat.le_total _ _

/-- Over points whose dates all parse, the trend comparator is transitive, so
`mergeSort` really sorts; proved by sorting the attached sublist type. -/
theorem sorted_trend_mergeSort (t : List TrendPoint)
    (hp : ∀ p ∈ t, (parseDate p.date).isSome) :
    (List.mergeSort t trendLe).Pairwise (fun a b => trendLe a b = true) := by
  have hmap : (List.mergeSort t.attach fun a b => trendLe a.1 b.1).map Subtype.val
      = List.mergeSort (t.attach.map Subtype.val) trendLe :=
    List.map_mergeSort fun a _ b _ => rfl
  rw [List.attach_map_subtype_val] at hmap
  have htrans : ∀ a b c : {x // x ∈ t},
      trendLe a.1 b.1 → trendLe b.1 c.1 → trendLe a.1 c.1 := by
    intro a b c hab hbc
    obtain ⟨x, hx⟩ := Option.isSome_iff_exists.mp (hp a.1 a.2)
    obtain ⟨y, hy⟩ := Option.isSome_iff_exists.mp (hp b.1 b.2)
    obtain ⟨z, hz⟩ := Option.isSome_iff_exists.mp (hp c.1 c.2)
    simp only [trendLe, hx, hy, hz, decide_eq_true_eq] at hab hbc ⊢
    omega
  have htotal : ∀ a b : {x // x ∈ t}, trendLe a.1 b.1 || trendLe b.1 a.1 :=
    fun a b => trendLe_total a.1 b.1
  have hs := List.sorted_mergeSort htrans htotal t.attach
  have hcast : (List.mergeSort t.attach fun a b => trendLe a.1 b.1).Pairwise
      (fun a b : {x // x ∈ t} => trendLe a.1 b.1 = true) := hs
  have hmapped : ((List.mergeSort t.attach fun a b => trendLe a.1 b.1).map Subtype.val).Pairwise
      (fun a b => trendLe a b = true) := List.pairwise_map.mpr hcast
  rw [hmap] at hmapped
  exact hmapped

theorem trendGrouped_dates (l : List Record) :
    (trendGrouped l).map (fun p => p.date) = (accumBy trendKey trendVal l).map Prod.fst := by
  rw [trendGrouped, List.map_map]
  rfl

theorem mem_trendGrouped {l : List Record} {p : TrendPoint} (hp : p ∈ trendGrouped l) :
    p.updates = (sumVals trendKey trendVal l p.date).1 ∧
    p.enrolments = (sumVals trendKey trendVal l p.date).2 ∧
    p.date ∈ l.map trendKey := by
  obtain ⟨q, hq, rfl⟩ := List.mem_map.mp hp
  obtain ⟨-, hmem, hsum⟩ := accum_spec trendKey trendVal l
  have h := hsum q hq
  refine ⟨by rw [h], by rw [h], ?_⟩
  exact (hmem q.1).mp (List.mem_map_of_mem Prod.fst hq)

/-- Every grouped date is parseable when every record date is. -/
theorem trendGrouped_parse {l : List Record} (h : datesParse l = true) :
    ∀ p ∈ trendGrouped l, (parseDate p.date).isSome := by
  intro p hp
  obtain ⟨-, -, hd⟩ := mem_trendGrouped hp
  obtain ⟨r, hr, hkey⟩ := List.mem_map.mp hd
  have hall := List.all_eq_true.mp h r hr
  cases hdate : r.date with
  | none => rw [hdate] at hall; simp at hall
  | some s =>
    rw [hdate] at hall
    simp only at hall
    rw [← hkey, trendKey, hdate, normDate_of_parse hall]
    exact hall

theorem trendGrouped_dates_nodup (l : List Record) :
    ((trendGrouped l).map (fun p => p.date)).Nodup := by
  rw [trendGrouped_dates]
  exact (accum_spec trendKey trendVal l).1

/-- With all dates parseable, the sorted trend series is strictly increasing
by parsed date. -/
theorem trend_sorted_strict (l : List Record) (h : datesParse l = true) :
    (trendData l).Pairwise (fun a b => dateLt a b = true) := by
  unfold trendData
  by_cases hemp : l.isEmpty
  · simp [hemp]
  · rw [if_neg hemp]
    have hp := trendGrouped_parse h
    have hsorted := sorted_trend_mergeSort (trendGrouped l) hp
    have hperm := List.mergeSort_perm (trendGrouped l) trendLe
    have hnd : ((List.mergeSort (trendGrouped l) trendLe).map fun p => p.date).Nodup :=
      ((hperm.map fun p => p.date).nodup_iff).mpr (trendGrouped_dates_nodup l)
    have hne : (List.mergeSort (trendGrouped l) trendLe).Pairwise
        (fun a b => a.date ≠ b.date) := by
      rw [List.Nodup] at hnd
      exact List.pairwise_map.mp hnd
    have hboth := hsorted.and hne
    refine List.Pairwise.imp_of_mem ?_ hboth
    intro a b ha hb hab
    have hpa := hp a (List.mem_mergeSort.mp ha)
    have hpb := hp b (List.mem_mergeSort.mp hb)
    obtain ⟨x, hx⟩ := Option.isSome_iff_exists.mp hpa
    obtain ⟨y, hy⟩ := Option.isSome_iff_exists.mp hpb
    have hxy : x ≠ y := by
      intro hcon
    -- equal parse values force equal date strings, contradicting nodup
      exact hab.2 (parseDate_inj hx (hcon ▸ hy))
    obtain ⟨hle, -⟩ := hab
    simp only [trendLe, hx, hy, decide_eq_true_eq] at hle
    simp only [dateLt, hx, hy, decide_eq_true_eq]
    omega

/-! ## Lemmas on the pivot -/

theorem ageTotals_spec (l : List Record) :
    ageTotals l = ((l.map fun r => orZero r.age_0_5).sum, (l.map fun r => orZero r.age_5_17).sum,
      (l.map fun r => orZero r.age_18_greater).sum) := by
  suffices h : ∀ acc : Nat × Nat × Nat,
      l.foldl (fun acc r =>
        (acc.1 + orZero r.age_0_5, acc.2.1 + orZero r.age_5_17,
          acc.2.2 + orZero r.age_18_greater)) acc =
      (acc.1 + (l.map fun r => orZero r.age_0_5).sum,
        acc.2.1 + (l.map fun r => orZero r.age_5_17).sum,
        acc.2.2 + (l.map fun r => orZero r.age_18_greater).sum) by
    rw [ageTotals, h]
    simp
  induction l with
  | nil => intro acc; simp
  | cons r rest ih =>
    intro acc
    simp only [List.foldl_cons, ih, List.map_cons, List.sum_cons]
    refine Prod.ext ?_ (Prod.ext ?_ ?_) <;> simp <;> omega

/-! ## Lemmas on the chart series -/

theorem injectLast_append_singleton (t : List TrendPoint) (p : TrendPoint) :
    injectLast (t ++ [p]) = t.map toChartPoint ++
      [⟨p.date, some p.updates, some p.enrolments, some (p.updates : ℚ), some (p.updates : ℚ)⟩] := by
  induction t with
  | nil => simp [injectLast]
  | cons q rest ih =>
    cases rest with
    | nil => simp [injectLast]
    | cons q2 rest2 =>
      simp only [List.cons_append] at ih ⊢
      simp only [injectLast]
      rw [ih]
      simp

/-! ## Auxiliary counting lemma for the sentinel bucket -/

theorem countP_eq_key (k : String) : ∀ L : List TrendPoint,
    ((L.map fun p => p.date).Nodup) →
    L.countP (fun p => decide (p.date = k)) = if k ∈ L.map (fun p => p.date) then 1 else 0 := by
  intro L
  induction L with
  | nil => intro _; simp
  | cons q rest ih =>
    intro hnd
    simp only [List.map_cons] at hnd
    have h1 := (List.nodup_cons.mp hnd).1
    have h2 := (List.nodup_cons.mp hnd).2
    rw [List.countP_cons]
    by_cases hq : q.date = k
    · subst hq
      rw [ih h2, if_neg h1]
      simp
    · have hq2 : ¬ k = q.date := fun hc => hq hc.symm
      rw [ih h2]
      simp [hq, hq2]

/-! ## Claim theorems -/

/-- C1: given two model evaluations whose stability scores differ by more than
the (nonnegative) tie-break tolerance, the Arbiter selects the lower-variance
model regardless of accuracy; within the tolerance it selects by accuracy
(lower mean error).  Spec-modelled: the backend Arbiter is not in the
repository snapshot. -/
theorem arbiter_stability_rule (tol : ℚ) (htol : 0 ≤ tol) (a b : ModelEval) :
    (a.stability + tol < b.stability → arbiterSelect tol a b = a) ∧
    (|a.stability - b.stability| ≤ tol →
      arbiterSelect tol a b = if a.meanError ≤ b.meanError then a else b) := by
  constructor
  · intro h
    have h2 : a.stability < b.stability := by linarith
    have h1 : ¬ |a.stability - b.stability| ≤ tol := by
      rw [abs_sub_comm, abs_of_pos (by linarith : (0 : ℚ) < b.stability - a.stability)]
      linarith
    rw [arbiterSelect, if_neg h1, if_pos h2]
  · intro h
    rw [arbiterSelect, if_pos h]

/-- C1 witness: with tolerance 1/100, the model with stability 1 beats the
model with stability 2 even though its mean error (5) is far worse than the
rival (1). -/
theorem arbiter_stability_rule_witness :
    arbiterSelect (1 / 100) ⟨"random_forest", 1, 5⟩ ⟨"xgboost", 2, 1⟩ =
      ⟨"random_forest", 1, 5⟩ := by
  have h :=
    (arbiter_stability_rule (1 / 100) (by norm_num) ⟨"random_forest", 1, 5⟩ ⟨"xgboost", 2, 1⟩).1
  apply h
  norm_num

/-- C2: with the breaker OPEN, a briefing call short-circuits to the fallback
response with reason `breakerOpen` and makes zero external calls.
Spec-modelled: the backend gateway is not in the repository snapshot. -/
theorem breaker_open_short_circuits (st : BreakerState) (h : st = .opened)
    (ext : BriefingRequest → Except FailureKind String) (req : BriefingRequest) :
    gatewayBriefing st ext req = (⟨gatewayFallbackText, true, some .breakerOpen⟩, 0) := by
  subst h
  rfl

/-- C2 witness: a concrete OPEN-state call returns the fallback and reason
with external call count zero, even though the external service would have
answered successfully. -/
theorem breaker_open_short_circuits_witness :
    gatewayBriefing .opened (fun _ => .ok "all good") sampleRequest =
      (⟨gatewayFallbackText, true, some .breakerOpen⟩, 0) :=
  breaker_open_short_circuits .opened rfl (fun _ => .ok "all good") sampleRequest

/-- C3 counterexample: a 2xx response whose body lacks the `interpretation`
field is a malformed response, yet `generateBriefing` does not produce the
deterministic fallback string — it stores `undefined` (here `none`), leaving
the briefing unset. -/
theorem briefing_malformed_counterexample :
    (generateBriefing sampleState malformedRespond).1.aiBriefing = none ∧
    ¬ (generateBriefing sampleState malformedRespond).1.aiBriefing = some briefingFallback := by
  have h0 : (generateBriefing sampleState malformedRespond).1.aiBriefing = none := rfl
  exact ⟨h0, fun h => Option.noConfusion (h0.symm.trans h)⟩

/-- C3 (amended): every rejected briefing call (timeout, HTTP error status,
network failure) stores the single deterministic fallback string and never
propagates; the dashboard data is untouched and the trend series remains
computable.  (A malformed 2xx body instead leaves the briefing unset — see the
counterexample.) -/
theorem briefing_failure_fallback (s : AppState) (e : AxiosFailure)
    (respond : BriefingPayload → Except AxiosFailure (Option ApiResponse))
    (hr : respond (briefingPayload s.activeModel s.predictionDetails) = .error e) :
    (generateBriefing s respond).1.aiBriefing = some briefingFallback ∧
    (generateBriefing s respond).1.isAiLoading = false ∧
    (generateBriefing s respond).1.rawData = s.rawData ∧
    (generateBriefing s respond).1.predictionDetails = s.predictionDetails ∧
    trendData (generateBriefing s respond).1.rawData = trendData s.rawData := by
  unfold generateBriefing
  dsimp only
  rw [hr]
  simp

/-- C3 witness: a concrete timed-out call stores exactly the fallback text. -/
theorem briefing_failure_fallback_witness :
    (generateBriefing sampleState fun _ => .error .timeout).1.aiBriefing =
      some briefingFallback :=
  (briefing_failure_fallback sampleState .timeout (fun _ => .error .timeout) rfl).1

/-- C4: a briefing call, whatever its outcome, leaves the record set, the
governance data, the prediction details, the active model and the pivot
selection unchanged — hence the derived TimeSeries, PivotTable, chart series
and demographic split are unchanged — and finishes with the loading flag
cleared; only the briefing text can change. -/
theorem generateBriefing_frame (s : AppState)
    (respond : BriefingPayload → Except AxiosFailure (Option ApiResponse)) :
    (generateBriefing s respond).1.rawData = s.rawData ∧
    (generateBriefing s respond).1.governanceData = s.governanceData ∧
    (generateBriefing s respond).1.predictionDetails = s.predictionDetails ∧
    (generateBriefing s respond).1.activeModel = s.activeModel ∧
    (generateBriefing s respond).1.pivotX = s.pivotX ∧
    (generateBriefing s respond).1.pivotY = s.pivotY ∧
    (generateBriefing s respond).1.isAiLoading = false ∧
    trendData (generateBriefing s respond).1.rawData = trendData s.rawData ∧
    studioData (generateBriefing s respond).1.pivotX (generateBriefing s respond).1.pivotY
        (generateBriefing s respond).1.rawData =
      studioData s.pivotX s.pivotY s.rawData ∧
    chartData (generateBriefing s respond).1.rawData
        (generateBriefing s respond).1.predictionDetails =
      chartData s.rawData s.predictionDetails ∧
    demographicSplit (generateBriefing s respond).1.rawData = demographicSplit s.rawData := by
  unfold generateBriefing
  dsimp only
  rcases respond (briefingPayload s.activeModel s.predictionDetails) with e | r
  · exact ⟨rfl, rfl, rfl, rfl, rfl, rfl, rfl, rfl, rfl, rfl, rfl⟩
  · rcases r with - | r2
    · exact ⟨rfl, rfl, rfl, rfl, rfl, rfl, rfl, rfl, rfl, rfl, rfl⟩
    · exact ⟨rfl, rfl, rfl, rfl, rfl, rfl, rfl, rfl, rfl, rfl, rfl⟩

/-- C5 counterexample: with a record whose date is missing, the sentinel entry
survives into the series and the dates are not strictly increasing (the
sentinel does not parse, and it sorts as a tie, here landing first). -/
theorem trend_unparseable_counterexample :
    trendData [recNoDate, recJan2] = [⟨"N/A", 5, 0⟩, ⟨"2024-01-02", 7, 0⟩] ∧
    ¬ (trendData [recNoDate, recJan2]).Pairwise (fun a b => dateLt a b = true) := by
  have hgroup : trendGrouped [recNoDate, recJan2] =
      [⟨"N/A", 5, 0⟩, ⟨"2024-01-02", 7, 0⟩] := by decide
  have h : trendData [recNoDate, recJan2] = [⟨"N/A", 5, 0⟩, ⟨"2024-01-02", 7, 0⟩] := by
    rw [trendData, if_neg (by decide), hgroup]
    exact List.mergeSort_of_sorted (by decide)
  refine ⟨h, ?_⟩
  rw [h]
  decide

/-- C5 (amended): for record sets in which every record carries a canonical
parseable date, the trend series has strictly increasing (hence unique) dates,
and each entry carries the summed `total_updates` and `total_enrolment` of the
records sharing its date. -/
theorem trend_strict_of_datesParse (l : List Record) (h : datesParse l = true) :
    (trendData l).Pairwise (fun a b => dateLt a b = true) ∧
    ∀ p ∈ trendData l,
      p.updates = (sumVals trendKey trendVal l p.date).1 ∧
      p.enrolments = (sumVals trendKey trendVal l p.date).2 := by
  refine ⟨trend_sorted_strict l h, ?_⟩
  intro p hp
  have hp2 : p ∈ trendGrouped l := by
    by_cases hemp : l.isEmpty
    · rw [trendData, if_pos hemp] at hp
      simp at hp
    · rw [trendData, if_neg hemp] at hp
      exact List.mem_mergeSort.mp hp
  obtain ⟨h1, h2, -⟩ := mem_trendGrouped hp2
  exact ⟨h1, h2⟩

/-- C5 witness: a concrete record set with parseable dates, one duplicated,
satisfies the strict-increase conclusion. -/
theorem trend_strict_witness :
    datesParse trendSample = true ∧
    (trendData trendSample).Pairwise (fun a b => dateLt a b = true) :=
  ⟨by decide, (trend_strict_of_datesParse trendSample (by decide)).1⟩

/-- C6 counterexample: a record with an unparseable (but present) date keeps
its own bucket rather than joining the "N/A" sentinel, and the sentinel bucket
of a missing-date record sorts first, not last. -/
theorem trend_sentinel_counterexample :
    (trendData [recGarbage, recJan2]).all (fun p => decide (p.date ≠ "N/A")) = true ∧
    (trendData [recNoDate, recMar5]).head? = some ⟨"N/A", 5, 0⟩ ∧
    (trendData [recNoDate, recMar5]).getLast? = some ⟨"2024-03-05", 2, 0⟩ := by
  have h1 : trendData [recGarbage, recJan2] = [⟨"garbage", 3, 0⟩, ⟨"2024-01-02", 7, 0⟩] := by
    rw [trendData, if_neg (by decide),
      show trendGrouped [recGarbage, recJan2] = [⟨"garbage", 3, 0⟩, ⟨"2024-01-02", 7, 0⟩]
        from by decide]
    exact List.mergeSort_of_sorted (by decide)
  have h2 : trendData [recNoDate, recMar5] = [⟨"N/A", 5, 0⟩, ⟨"2024-03-05", 2, 0⟩] := by
    rw [trendData, if_neg (by decide),
      show trendGrouped [recNoDate, recMar5] = [⟨"N/A", 5, 0⟩, ⟨"2024-03-05", 2, 0⟩]
        from by decide]
    exact List.mergeSort_of_sorted (by decide)
  rw [h1, h2]
  refine ⟨by decide, rfl, rfl⟩

/-- C6 (amended): records with a missing or empty date are pooled into the one
sentinel "N/A" bucket — it appears exactly when such a record exists, and it
carries exactly those records' summed totals; but unparseable non-empty dates
keep their own buckets, and the sentinel is not in general placed last (see
the counterexample). -/
theorem trend_sentinel_bucket (l : List Record) :
    ((trendData l).countP fun p => decide (p.date = "N/A")) =
      (if l.any (fun r => decide (normDate r.date = "N/A")) = true then 1 else 0) ∧
    ∀ p ∈ trendData l, p.date = "N/A" →
      p.updates = (sumVals trendKey trendVal l "N/A").1 ∧
      p.enrolments = (sumVals trendKey trendVal l "N/A").2 := by
  constructor
  · by_cases hemp : l.isEmpty
    · have hl : l = [] := List.isEmpty_iff.mp hemp
      subst hl
      simp [trendData]
    · rw [trendData, if_neg hemp]
      rw [(List.mergeSort_perm (trendGrouped l) trendLe).countP_eq
        (fun p => decide (p.date = "N/A"))]
      rw [countP_eq_key _ _ (trendGrouped_dates_nodup l)]
      have hmem : ("N/A" ∈ (trendGrouped l).map fun p => p.date) ↔ "N/A" ∈ l.map trendKey := by
        rw [trendGrouped_dates]
        exact (accum_spec trendKey trendVal l).2.1 "N/A"
      by_cases hany : l.any (fun r => decide (normDate r.date = "N/A")) = true
      · rw [if_pos hany, if_pos]
        rw [hmem]
        obtain ⟨r, hr, hnr⟩ := List.any_eq_true.mp hany
        simp only [decide_eq_true_eq] at hnr
        exact List.mem_map.mpr ⟨r, hr, hnr.symm ▸ rfl⟩
      · rw [if_neg hany, if_neg]
        rw [hmem]
        intro hcon
        obtain ⟨r, hr, hkr⟩ := List.mem_map.mp hcon
        exact hany (List.any_eq_true.mpr ⟨r, hr, by simp [trendKey] at hkr ⊢; exact hkr⟩)
  · intro p hp hdate
    have hp2 : p ∈ trendGrouped l := by
      by_cases hemp : l.isEmpty
      · rw [trendData, if_pos hemp] at hp
        simp at hp
      · rw [trendData, if_neg hemp] at hp
        exact List.mem_mergeSort.mp hp
    obtain ⟨h1, h2, -⟩ := mem_trendGrouped hp2
    rw [← hdate]
    exact ⟨h1, h2⟩

/-- C6 witness: with one missing-date record and one dated record, exactly one
sentinel entry exists and it carries the missing-date totals. -/
theorem trend_sentinel_bucket_witness :
    (trendData [recNoDate, recMar5]).countP (fun p => decide (p.date = "N/A")) = 1 := by
  have h := (trend_sentinel_bucket [recNoDate, recMar5]).1
  rw [h]
  decide

/-- C8 counterexample: on the empty record set the demographic split is the
empty list, not three zero-valued buckets. -/
theorem demographic_empty_counterexample :
    demographicSplit [] = [] ∧ (demographicSplit []).length ≠ 3 := by
  refine ⟨rfl, by decide⟩

/-- C8 (amended): on a non-empty record set the demographic split has exactly
the three age buckets carrying the field sums; the empty record set instead
short-circuits to the empty list (still no error). -/
theorem demographic_split_nonempty (l : List Record) (h : l ≠ []) :
    demographicSplit l =
      [⟨"Infants (0-5)", (l.map fun r => orZero r.age_0_5).sum, "#38bdf8"⟩,
        ⟨"Students (5-17)", (l.map fun r => orZero r.age_5_17).sum, "#818cf8"⟩,
        ⟨"Adults (18+)", (l.map fun r => orZero r.age_18_greater).sum, "#c084fc"⟩] ∧
    (demographicSplit l).length = 3 := by
  have hemp : ¬ l.isEmpty = true := fun hc => h (List.isEmpty_iff.mp hc)
  have heq : demographicSplit l =
      [⟨"Infants (0-5)", (l.map fun r => orZero r.age_0_5).sum, "#38bdf8"⟩,
        ⟨"Students (5-17)", (l.map fun r => orZero r.age_5_17).sum, "#818cf8"⟩,
        ⟨"Adults (18+)", (l.map fun r => orZero r.age_18_greater).sum, "#c084fc"⟩] := by
    rw [demographicSplit, if_neg hemp, ageTotals_spec]
  exact ⟨heq, by rw [heq]; rfl⟩

/-- C8 witness: one concrete record yields the three buckets with its own
age-band values. -/
theorem demographic_split_witness :
    (demographicSplit [mkDistRec "D01" 13]).length = 3 :=
  (demographic_split_nonempty [mkDistRec "D01" 13] (by decide)).2

/-- C9: with prediction details present and a non-empty trend series, the
chart series is the trend series with exactly one appended forecast node whose
forecast values are the models' point estimates scaled by one million; all
points but the last are carried over unchanged, and the last history point
duplicates its own `updates` into both forecast fields. -/
theorem chartData_forecast_append (l : List Record) (pd : PredictionDetails)
    (h : trendData l ≠ []) :
    chartData l (some pd) =
      (trendData l).dropLast.map toChartPoint ++
        [⟨((trendData l).getLast h).date, some ((trendData l).getLast h).updates,
          some ((trendData l).getLast h).enrolments,
          some (((trendData l).getLast h).updates : ℚ),
          some (((trendData l).getLast h).updates : ℚ)⟩,
          ⟨"Next Cycle (Est)", none, none, some (pd.xgboost.val * 1000000),
            some (pd.random_forest.val * 1000000)⟩] ∧
    (chartData l (some pd)).length = (trendData l).length + 1 ∧
    (chartData l (some pd)).take ((trendData l).length - 1) =
      ((trendData l).take ((trendData l).length - 1)).map toChartPoint := by
  have hcnot : ¬ (trendData l).isEmpty = true := fun hc => h (List.isEmpty_iff.mp hc)
  have hc1 : chartData l (some pd) = injectLast (trendData l) ++ [forecastNode pd] := by
    simp only [chartData]
    rw [if_neg hcnot]
  have hsplit : (trendData l).dropLast ++ [(trendData l).getLast h] = trendData l :=
    List.dropLast_append_getLast h
  have hinj : injectLast (trendData l) =
      (trendData l).dropLast.map toChartPoint ++
        [⟨((trendData l).getLast h).date, some ((trendData l).getLast h).updates,
          some ((trendData l).getLast h).enrolments,
          some (((trendData l).getLast h).updates : ℚ),
          some (((trendData l).getLast h).updates : ℚ)⟩] := by
    conv_lhs => rw [← hsplit]
    exact injectLast_append_singleton _ _
  have hlen : ((trendData l).dropLast.map toChartPoint).length = (trendData l).length - 1 := by
    rw [List.length_map, List.length_dropLast]
  refine ⟨?_, ?_, ?_⟩
  · rw [hc1, hinj, forecastNode, List.append_assoc]
    rfl
  · have hpos : 0 < (trendData l).length := List.length_pos.mpr h
    rw [hc1, List.length_append, hinj, List.length_append, hlen]
    simp only [List.length_singleton]
    omega
  · rw [hc1, hinj, List.append_assoc, List.take_left' hlen, ← List.dropLast_eq_take]

/-- C9 witness: one dated record plus sample predictions produce a two-point
chart: the history point and the forecast node. -/
theorem chartData_forecast_append_witness :
    trendData [recJan1] ≠ [] ∧
    (chartData [recJan1] (some samplePreds)).length = (trendData [recJan1]).length + 1 := by
  have heval : trendData [recJan1] = [⟨"2024-01-01", 4, 2⟩] := by
    rw [trendData, if_neg (by decide),
      show trendGrouped [recJan1] = [⟨"2024-01-01", 4, 2⟩] from by decide]
    exact List.mergeSort_of_sorted (by decide)
  have hne : trendData [recJan1] ≠ [] := by
    rw [heval]
    decide
  exact ⟨hne, (chartData_forecast_append [recJan1] samplePreds hne).2.1⟩

/-- C10: when the active model has no prediction entry (prediction details not
loaded), `generateBriefing` still sends the request, with the string "N/A" as
volume and the string "NaN%" as confidence, rather than refusing the call. -/
theorem briefing_payload_no_prediction (s : AppState)
    (respond : BriefingPayload → Except AxiosFailure (Option ApiResponse))
    (h : s.predictionDetails = none) :
    (generateBriefing s respond).2 =
      ⟨s.activeModel, .str "N/A", "NaN%", "National Strategic Grid"⟩ := by
  have hp : (generateBriefing s respond).2 =
      briefingPayload s.activeModel s.predictionDetails := by
    unfold generateBriefing
    dsimp only
    rcases respond (briefingPayload s.activeModel s.predictionDetails) with e | r
    · rfl
    · rcases r with - | r2
      · rfl
      · rfl
  rw [hp, h]
  rfl

/-- C10 witness: the quiescent sample state (no prediction details) produces
exactly the degenerate payload while still issuing the call. -/
theorem briefing_payload_no_prediction_witness :
    (generateBriefing sampleState malformedRespond).2 =
      ⟨"XGBoost", .str "N/A", "NaN%", "National Strategic Grid"⟩ :=
  briefing_payload_no_prediction sampleState malformedRespond rfl

end Drishti
